import Mathlib

/-!
Verification development for the SecLogAI log pipeline
(src/services/geminiService.ts and the App component).

Embedding conventions:
* JavaScript strings are modeled as `String` where the code only compares,
  concatenates or slices them, and as `List Char` where the code iterates
  over their characters (`trim`, `split`, `startsWith`).  JS strings are
  sequences of code units, so a character list is a faithful model.
* `JSON.parse` is a platform builtin, not repository code; it is modeled as
  an explicit parameter `parse : List Char → Except String Json`
  (`Except.error` models a thrown `SyntaxError`).
* `Math.random()` returns a double of the form `r / 2 ^ 53` with
  `0 ≤ r < 2 ^ 53`; a call stream is modeled as `rnd : Nat → Nat` giving the
  numerator of each successive draw.  The comparisons of the source are
  translated accordingly, e.g. `Math.random() < 0.05` becomes
  `20 * r < 2 ^ 53`.
* ISO-8601 timestamps produced and re-parsed by the demo generator are
  modeled by their epoch-millisecond value (an `Int`), because
  `new Date(ms).toISOString()` followed by `new Date(iso).getTime()` is the
  identity on integral milliseconds.
-/

namespace SecLogAI

/-- JSON values, the possible results of a successful `JSON.parse`.
Numbers are restricted to integers, which covers every numeric field the
pipeline inspects (`event_id`, `status_code`). -/
inductive Json where
  | null
  | bool (b : Bool)
  | num (n : Int)
  | str (s : String)
  | arr (elems : List Json)
  | obj (fields : List (String × Json))

/-- The `LogEntry` interface of geminiService.ts, as a dynamic record: the
TypeScript type declares `timestamp`, `ip` and `action` as required, but
JSON-parsed objects are stored without validation, so at runtime every field
may be absent.  `event_id` may be a string or a number. -/
structure LogEntry where
  timestamp : Option String
  event_id : Option (String ⊕ Int)
  user : Option String
  ip : Option String
  action : Option String
  status_code : Option Int
  user_agent : Option String
  severity : Option String
  message : Option String
deriving DecidableEq

/-- The all-absent record: what dynamic field access yields on a JSON value
that is not an object. -/
def emptyEntry : LogEntry :=
  { timestamp := none, event_id := none, user := none, ip := none,
    action := none, status_code := none, user_agent := none,
    severity := none, message := none }

/-- Property lookup on a parsed JSON object (first binding wins). -/
def getProp (fields : List (String × Json)) (k : String) : Option Json :=
  (fields.find? (fun p => p.1 == k)).map (fun p => p.2)

/-- Reading a field expected to be a string; any other shape reads as absent. -/
def strField : Option Json → Option String
  | some (Json.str s) => some s
  | _ => none

/-- Reading the `event_id` field, which may be a string or a number. -/
def idField : Option Json → Option (String ⊕ Int)
  | some (Json.str s) => some (Sum.inl s)
  | some (Json.num n) => some (Sum.inr n)
  | _ => none

/-- Reading a numeric field. -/
def numField : Option Json → Option Int
  | some (Json.num n) => some n
  | _ => none

/-- The record stored for one element of a parsed JSON upload.  The source
stores the parsed value itself and reads its properties dynamically
(`l.action?.includes(...)`, `l.ip`, ...); this function is that dynamic view:
each declared field is read if present with the right shape, otherwise it is
absent.  No fallback values are synthesized. -/
def entryOfJson : Json → LogEntry
  | Json.obj fs =>
    { timestamp := strField (getProp fs "timestamp")
      event_id := idField (getProp fs "event_id")
      user := strField (getProp fs "user")
      ip := strField (getProp fs "ip")
      action := strField (getProp fs "action")
      status_code := numField (getProp fs "status_code")
      user_agent := strField (getProp fs "user_agent")
      severity := strField (getProp fs "severity")
      message := strField (getProp fs "message") }
  | _ => emptyEntry

/-- JS `String.prototype.trim` on the character-list model: whitespace is
removed from both ends. -/
def jsTrim (s : List Char) : List Char :=
  ((s.dropWhile Char.isWhitespace).reverse.dropWhile Char.isWhitespace).reverse

/-- JS `String.prototype.startsWith`. -/
def jsStartsWith (s pat : List Char) : Bool :=
  s.take pat.length == pat

/-- The record built for one non-blank line in the raw-text fallback of
`handleFileUpload`: `timestamp = now`, `ip = "Unknown"`, `action = "RAW_LOG"`,
`message = line`. -/
def rawEntry (nowIso : String) (line : List Char) : LogEntry :=
  { timestamp := some nowIso, event_id := none, user := none,
    ip := some "Unknown", action := some "RAW_LOG",
    status_code := none, user_agent := none, severity := none,
    message := some (String.mk line) }

/-- The branch condition of `handleFileUpload`:
`text.trim().startsWith('[') || text.trim().startsWith('\x7b')`. -/
def looksStructured (text : List Char) : Bool :=
  jsStartsWith (jsTrim text) ['['] || jsStartsWith (jsTrim text) ['\x7b']

/-- The raw-text fallback branch of `handleFileUpload`:
`text.split('\n').filter(l => l.trim())` mapped to raw records. -/
def rawLines (nowIso : String) (text : List Char) : List LogEntry :=
  ((text.splitOn '\n').filter (fun l => !(jsTrim l).isEmpty)).map (rawEntry nowIso)

/-- The `reader.onload` body of `handleFileUpload`.  `parse` models the
platform `JSON.parse` (`Except.error` models a thrown `SyntaxError`),
`nowIso` models `new Date().toISOString()`, and `cur` is the `logs` state
before the upload.  Returns the `logs` state afterwards together with the
text handed to `processLogs` (and thence to the external analyzer): on a
parse failure the `catch` clause forwards the raw text without touching the
`logs` state. -/
def handleFileUpload (parse : List Char → Except String Json) (nowIso : String)
    (text : List Char) (cur : List LogEntry) : List LogEntry × List Char :=
  if looksStructured text then
    match parse text with
    | Except.ok v =>
        ((match v with
          | Json.arr xs => xs.map entryOfJson
          | _ => [entryOfJson v]), text)
    | Except.error _ => (cur, text)
  else
    (rawLines nowIso text, text)

/-- The character cap of `analyzeLogsWithGemini`. -/
def MAX_CHARS : Nat := 500000

/-- The fixed truncation notice appended when the input is cut. -/
def truncationNote : String :=
  "\n\n[NOTE: Logs were truncated for analysis due to size constraints. Showing first 500k characters.]"

/-- The truncation step of `analyzeLogsWithGemini`: the text actually
embedded in the outbound prompt (`processedLogs` followed by
`truncationNote`, the latter empty when no truncation happened), together
with whether truncation happened. -/
def prepareLogs (logs : String) : String × Bool :=
  if logs.length > MAX_CHARS then
    (logs.take MAX_CHARS ++ truncationNote, true)
  else
    (logs, false)

/-- JS `String.prototype.includes` on our `String` model. -/
def strContains (s pat : String) : Bool :=
  decide (pat.toList <:+: s.toList)

/-- `l.action?.includes('FAILED')`: absent action reads as not failed. -/
def actionFailed (l : LogEntry) : Bool :=
  match l.action with
  | some a => strContains a "FAILED"
  | none => false

/-- The filter of `stats.failed`:
`l.action?.includes('FAILED') || l.status_code === 403 || l.event_id === 4625`.
Strict equality on `event_id` matches only the number 4625, not the string. -/
def failedPred (l : LogEntry) : Bool :=
  actionFailed l || decide (l.status_code = some 403)
    || decide (l.event_id = some (Sum.inr 4625))

/-- The filter of `stats.critical`:
`l.severity === 'Critical' || l.severity === 'High'`. -/
def criticalPred (l : LogEntry) : Bool :=
  decide (l.severity = some "Critical") || decide (l.severity = some "High")

/-- The dashboard stats record. -/
structure Stats where
  total : Nat
  failed : Nat
  uniqueIps : Nat
  critical : Nat
deriving DecidableEq

/-- The `stats` computation of the App component. `new Set(...).size` is the
number of distinct `ip` values (all records with an absent `ip` collapse to
the one value `undefined`). -/
def statsOf (logs : List LogEntry) : Stats :=
  { total := logs.length
    failed := (logs.filter failedPred).length
    uniqueIps := (logs.map (fun l => l.ip)).dedup.length
    critical := (logs.filter criticalPred).length }

/-- A JSON-style rendering of one stored record, modeling
`JSON.stringify`: declared fields are emitted in declaration order and
absent (`undefined`) fields are omitted, as `JSON.stringify` does. -/
def serializeEntry (l : LogEntry) : String :=
  let strF := fun (k : String) (v : Option String) =>
    match v with
    | some s => ["\"" ++ k ++ "\":\"" ++ s ++ "\""]
    | none => []
  let idF := fun (k : String) (v : Option (String ⊕ Int)) =>
    match v with
    | some (Sum.inl s) => ["\"" ++ k ++ "\":\"" ++ s ++ "\""]
    | some (Sum.inr n) => ["\"" ++ k ++ "\":" ++ toString n]
    | none => []
  let numF := fun (k : String) (v : Option Int) =>
    match v with
    | some n => ["\"" ++ k ++ "\":" ++ toString n]
    | none => []
  "\x7b" ++ String.intercalate ","
    (strF "timestamp" l.timestamp ++ idF "event_id" l.event_id
      ++ strF "user" l.user ++ strF "ip" l.ip ++ strF "action" l.action
      ++ numF "status_code" l.status_code ++ strF "user_agent" l.user_agent
      ++ strF "severity" l.severity ++ strF "message" l.message) ++ "\x7d"

/-- `JSON.stringify` of a record list. -/
def serializeLogs (logs : List LogEntry) : String :=
  "[" ++ String.intercalate "," (logs.map serializeEntry) ++ "]"

/-- The context construction of `handleChatSubmit`:
`logs.length > 0 ? `Current Logs Context: ...stringify(slice(0,50))...` : ''`
prepended to the user message. -/
def buildContext (logs : List LogEntry) (userMsg : String) : String :=
  (if logs.length > 0 then
    "Current Logs Context: " ++ serializeLogs (logs.take 50) ++ "\n\n"
  else "") ++ userMsg

/-- A concrete fragment of the platform `JSON.parse` used by the concrete
instantiations below: the text `[\x7b\x7d]` parses to an array holding one
empty object, and the two malformed inputs exercised by the counterexamples
raise a syntax error, as `JSON.parse` does on them. -/
def parseCex : List Char → Except String Json :=
  fun s =>
    if s = "[\x7b\x7d]".toList then Except.ok (Json.arr [Json.obj []])
    else Except.error "SyntaxError"

/-- The one-record batch of the C4 scenario. -/
def c4Entry : LogEntry :=
  { emptyEntry with
      ip := some "1.2.3.4",
      action := some "LOGIN_FAILED",
      status_code := some 200,
      event_id := some (Sum.inr 4625),
      severity := some "Info" }

/-- Characters of a `String.take` result: the take really is the character
prefix of the given length. -/
theorem string_take_toList (s : String) (n : Nat) : (s.take n).toList = s.toList.take n := by
  cases s with
  | mk l =>
    rw [String.take_eq]
    rfl

/-- Length of a `String.take` result. -/
theorem string_length_take (s : String) (n : Nat) : (s.take n).length = min n s.length := by
  cases s with
  | mk l =>
    rw [String.take_eq]
    simpa using List.length_take n l

/-- C3: `prepare(s)` returns `(s, false)` when `len(s) ≤ 500000`, and the
exact 500000-character prefix of `s` followed by the fixed truncation
notice, flagged `true`, when `len(s) > 500000`. -/
theorem prepareLogs_spec (s : String) :
    (s.length ≤ MAX_CHARS → prepareLogs s = (s, false)) ∧
    (MAX_CHARS < s.length →
      prepareLogs s = (s.take MAX_CHARS ++ truncationNote, true) ∧
      (s.take MAX_CHARS).length = MAX_CHARS ∧
      (s.take MAX_CHARS).toList = s.toList.take MAX_CHARS) := by
  constructor
  · intro h
    simp [prepareLogs, Nat.not_lt.mpr h]
  · intro h
    refine ⟨by simp [prepareLogs, h], ?_, string_take_toList s MAX_CHARS⟩
    rw [string_length_take]
    exact min_eq_left (Nat.le_of_lt h)

/-- C3 witness: a concrete 500001-character input is truncated to the prefix
plus the notice with the flag set. -/
theorem prepareLogs_spec_witness :
    MAX_CHARS < (String.mk (List.replicate 500001 'a')).length ∧
    prepareLogs (String.mk (List.replicate 500001 'a')) =
      ((String.mk (List.replicate 500001 'a')).take MAX_CHARS ++ truncationNote, true) := by
  have h : MAX_CHARS < (String.mk (List.replicate 500001 'a')).length := by
    show MAX_CHARS < (List.replicate 500001 'a').length
    rw [List.length_replicate]
    decide
  exact ⟨h, ((prepareLogs_spec _).2 h).1⟩

/-- C7: the original raw text is handed to `processLogs` (and hence to the
external analyzer) unmodified, on every ingestion path: structured success,
structured parse failure, and raw-text fallback. -/
theorem handleFileUpload_forwards_raw (parse : List Char → Except String Json)
    (nowIso : String) (text : List Char) (cur : List LogEntry) :
    (handleFileUpload parse nowIso text cur).2 = text := by
  unfold handleFileUpload
  split
  · cases parse text <;> rfl
  · rfl

/-- C4: `Stats.failed` counts each record satisfying the three-way
disjunction exactly once, and on the scenario batch of one record matching
both the action and the event-id disjunct it is 1, with `Stats.critical` 0. -/
theorem statsOf_failed_spec (logs : List LogEntry) :
    (statsOf logs).failed = logs.countP failedPred ∧
    actionFailed c4Entry = true ∧
    c4Entry.event_id = some (Sum.inr 4625) ∧
    c4Entry.status_code = some 200 ∧
    (statsOf [c4Entry]).failed = 1 ∧
    (statsOf [c4Entry]).critical = 0 := by
  refine ⟨?_, by decide, by decide, by decide, by decide, by decide⟩
  simp [statsOf, List.countP_eq_length_filter]

/-- C8: with a non-empty batch, `buildContext` prepends the labeled
serialization of exactly the first 50 records (at most 50; the element at
each index below 50 is the batch's element there) before the user message;
with an empty batch the message is forwarded unmodified. -/
theorem buildContext_spec (logs : List LogEntry) (msg : String) :
    (logs = [] → buildContext logs msg = msg) ∧
    (logs ≠ [] →
      buildContext logs msg =
        "Current Logs Context: " ++ serializeLogs (logs.take 50) ++ "\n\n" ++ msg) ∧
    (logs.take 50).length = min 50 logs.length ∧
    (∀ i, i < 50 → (logs.take 50)[i]? = logs[i]?) := by
  refine ⟨?_, ?_, by simpa using List.length_take 50 logs, ?_⟩
  · intro h
    subst h
    simp [buildContext]
  · intro h
    have hl : 0 < logs.length := List.length_pos.mpr h
    simp [buildContext, hl, String.append_assoc]
  · intro i hi
    simp [List.getElem?_take, hi]

/-- C8 witness: a batch of 60 records is cut to its first 50 in the
prepended context. -/
theorem buildContext_spec_witness :
    List.replicate 60 emptyEntry ≠ [] ∧
    buildContext (List.replicate 60 emptyEntry) "hi" =
      "Current Logs Context: "
        ++ serializeLogs ((List.replicate 60 emptyEntry).take 50) ++ "\n\n" ++ "hi" ∧
    ((List.replicate 60 emptyEntry).take 50).length = 50 := by
  have h : List.replicate 60 emptyEntry ≠ [] := by simp
  have w := buildContext_spec (List.replicate 60 emptyEntry) "hi"
  exact ⟨h, w.2.1 h, by simpa using w.2.2.1⟩

/-- C1 counterexample: the input `[oops` trim-starts with `[` and fails to
parse, yet the resulting batch is NOT the raw-text split of the input (the
catch clause leaves the batch alone; here it stays empty instead of holding
one RAW_LOG record per non-blank line). -/
theorem handleFileUpload_c1_cex :
    looksStructured ("[oops".toList) = true ∧
    parseCex ("[oops".toList) = Except.error "SyntaxError" ∧
    (handleFileUpload parseCex "2024-01-01T00:00:00.000Z" ("[oops".toList) []).1 = [] ∧
    (handleFileUpload parseCex "2024-01-01T00:00:00.000Z" ("[oops".toList) []).1 ≠
      rawLines "2024-01-01T00:00:00.000Z" ("[oops".toList) := by
  refine ⟨by decide, rfl, rfl, by decide⟩

/-- C1 (amended): when the trimmed input starts with `[` or `\x7b` and JSON
parsing fails, ingestion falls through WITHOUT touching the batch — the
input is not split into raw-text records (that mode only serves inputs not
starting with `[` or `\x7b`) — and the raw text is still forwarded; the
whole handler is a total function, so no exception escapes. -/
theorem handleFileUpload_parse_failure (parse : List Char → Except String Json)
    (nowIso : String) (text : List Char) (cur : List LogEntry) (e : String)
    (hb : looksStructured text = true) (hp : parse text = Except.error e) :
    handleFileUpload parse nowIso text cur = (cur, text) := by
  simp [handleFileUpload, hb, hp]

/-- C1 witness: the parse-failure fall-through at the concrete input `[oops`
with a one-record batch in place. -/
theorem handleFileUpload_parse_failure_witness :
    looksStructured ("[oops".toList) = true ∧
    parseCex ("[oops".toList) = Except.error "SyntaxError" ∧
    handleFileUpload parseCex "T" ("[oops".toList) [c4Entry] = ([c4Entry], "[oops".toList) :=
  ⟨by decide, rfl,
    handleFileUpload_parse_failure parseCex "T" ("[oops".toList) [c4Entry] "SyntaxError"
      (by decide) rfl⟩

/-- C10: on a structured-looking input that fails to parse, the previously
held batch survives completely unchanged while the raw text is still sent on
for analysis. -/
theorem handleFileUpload_frame (parse : List Char → Except String Json)
    (nowIso : String) (text : List Char) (cur : List LogEntry) (e : String)
    (hb : looksStructured text = true) (hp : parse text = Except.error e) :
    (handleFileUpload parse nowIso text cur).1 = cur ∧
    (handleFileUpload parse nowIso text cur).2 = text := by
  simp [handleFileUpload, hb, hp]

/-- C10 witness: a brace-led malformed input leaves the held batch in place
and forwards the text. -/
theorem handleFileUpload_frame_witness :
    looksStructured ("\x7boops".toList) = true ∧
    parseCex ("\x7boops".toList) = Except.error "SyntaxError" ∧
    (handleFileUpload parseCex "T" ("\x7boops".toList) [c4Entry]).1 = [c4Entry] ∧
    (handleFileUpload parseCex "T" ("\x7boops".toList) [c4Entry]).2 = "\x7boops".toList :=
  have w := handleFileUpload_frame parseCex "T" ("\x7boops".toList) [c4Entry] "SyntaxError"
    (by decide) rfl
  ⟨by decide, rfl, w.1, w.2⟩

/-- C2 counterexample: the valid JSON array `[\x7b\x7d]` of one empty object
yields a one-record batch whose `ip`, `action` and `timestamp` are all
absent — no `Unknown`/`RAW_LOG`/now fallback is synthesized. -/
theorem handleFileUpload_c2_cex :
    parseCex ("[\x7b\x7d]".toList) = Except.ok (Json.arr [Json.obj []]) ∧
    (handleFileUpload parseCex "T" ("[\x7b\x7d]".toList) []).1.map (fun l => l.ip) = [none] ∧
    (handleFileUpload parseCex "T" ("[\x7b\x7d]".toList) []).1.map (fun l => l.action) = [none] ∧
    (handleFileUpload parseCex "T" ("[\x7b\x7d]".toList) []).1.map (fun l => l.timestamp)
      = [none] ∧
    (none : Option String) ≠ some "Unknown" :=
  ⟨rfl, rfl, rfl, rfl, by decide⟩

/-- C2 (amended): a structured input parsing to a JSON array becomes a batch
of the same length whose elements are the parsed objects as they are — no
re-validation happens, so required fields absent from a source record stay
absent instead of receiving the generic fallback. -/
theorem handleFileUpload_json_array (parse : List Char → Except String Json)
    (nowIso : String) (text : List Char) (cur : List LogEntry) (xs : List Json)
    (hb : looksStructured text = true) (hp : parse text = Except.ok (Json.arr xs)) :
    (handleFileUpload parse nowIso text cur).1 = xs.map entryOfJson ∧
    (handleFileUpload parse nowIso text cur).1.length = xs.length := by
  simp [handleFileUpload, hb, hp]

/-- One point of the `chartData` timeline: time label, total count, failed
count. -/
structure Bucket where
  time : List Char
  count : Nat
  failed : Nat
deriving DecidableEq

/-- One step of the reduce in `chartData`: if a bucket with this label
exists, bump the first such bucket in place (`existing.count += 1`, plus the
failed tally when the record's action contains FAILED), otherwise push a
fresh bucket at the end. -/
def bumpBucket (lbl : List Char) (fl : Bool) : List Bucket → List Bucket
  | [] => [{ time := lbl, count := 1, failed := if fl then 1 else 0 }]
  | b :: bs =>
    if b.time = lbl then
      { time := b.time, count := b.count + 1,
        failed := b.failed + (if fl then 1 else 0) } :: bs
    else
      b :: bumpBucket lbl fl bs

/-- The accumulating function of the `reduce` in `chartData`. -/
def chartStep (fmt : Option String → List Char) (acc : List Bucket) (l : LogEntry) :
    List Bucket :=
  bumpBucket (fmt l.timestamp) (actionFailed l) acc

/-- The accumulator of the `reduce` in `chartData`, before sorting and
capping.  `fmt` models `ts => format(new Date(ts), 'HH:mm')`, the
minute-resolution local-time label of a record's timestamp; the grouping,
ordering and capping claims are proved for every labeling function. -/
def chartRaw (fmt : Option String → List Char) (logs : List LogEntry) : List Bucket :=
  logs.foldl (chartStep fmt) []

/-- The `.sort((a, b) => a.time.localeCompare(b.time))` step: on the ASCII
`HH:mm` labels, `localeCompare` is the lexicographic code-unit order. -/
def sortedChart (fmt : Option String → List Char) (logs : List LogEntry) : List Bucket :=
  List.insertionSort (fun a b => a.time ≤ b.time) (chartRaw fmt logs)

/-- `chartData`: reduce into buckets, sort by label ascending, `slice(-20)`
(keep the last 20 buckets of the ascending order). -/
def chartData (fmt : Option String → List Char) (logs : List LogEntry) : List Bucket :=
  (sortedChart fmt logs).drop ((sortedChart fmt logs).length - 20)

/-- Labels after a bump: unchanged when the label was present, appended
otherwise. -/
theorem bumpBucket_keys (lbl : List Char) (fl : Bool) (bs : List Bucket) :
    (bumpBucket lbl fl bs).map Bucket.time =
      if lbl ∈ bs.map Bucket.time then bs.map Bucket.time
      else bs.map Bucket.time ++ [lbl] := by
  induction bs with
  | nil => simp [bumpBucket]
  | cons b bs ih =>
    by_cases h : b.time = lbl
    · simp [bumpBucket, h]
    · have h2 : ¬ lbl = b.time := fun he => h he.symm
      by_cases hm : lbl ∈ bs.map Bucket.time
      · simp [bumpBucket, h, ih, hm, h2]
      · simp [bumpBucket, h, ih, hm, h2]

/-- A bump keeps the labels duplicate-free. -/
theorem bumpBucket_keys_nodup (lbl : List Char) (fl : Bool) (bs : List Bucket)
    (h : (bs.map Bucket.time).Nodup) :
    ((bumpBucket lbl fl bs).map Bucket.time).Nodup := by
  rw [bumpBucket_keys]
  by_cases hm : lbl ∈ bs.map Bucket.time
  · simpa [hm] using h
  · simp [hm, List.nodup_append, h]

/-- The reduce of `chartData` never produces two buckets with one label. -/
theorem chartRaw_keys_nodup (fmt : Option String → List Char) (logs : List LogEntry) :
    ((chartRaw fmt logs).map Bucket.time).Nodup := by
  suffices h : ∀ acc : List Bucket, (acc.map Bucket.time).Nodup →
      ((logs.foldl (chartStep fmt) acc).map Bucket.time).Nodup by
    exact h [] (by simp)
  induction logs with
  | nil => intro acc h; simpa using h
  | cons l ls ih =>
    intro acc h
    exact ih _ (bumpBucket_keys_nodup _ _ _ h)

/-- The first bucket carrying a label. -/
def lookupB (t : List Char) : List Bucket → Option Bucket :=
  List.find? (fun b => decide (b.time = t))

/-- The total count recorded for a label (0 when the label has no bucket). -/
def bCount (t : List Char) (bs : List Bucket) : Nat :=
  match lookupB t bs with
  | some b => b.count
  | none => 0

/-- The failed count recorded for a label. -/
def bFailed (t : List Char) (bs : List Bucket) : Nat :=
  match lookupB t bs with
  | some b => b.failed
  | none => 0

/-- Unfolding a bump on a list whose head carries the label. -/
theorem bumpBucket_cons_hit (lbl : List Char) (fl : Bool) (b : Bucket) (bs : List Bucket)
    (h : b.time = lbl) :
    bumpBucket lbl fl (b :: bs) =
      { time := b.time, count := b.count + 1,
        failed := b.failed + (if fl then 1 else 0) } :: bs := by
  simp [bumpBucket, h]

/-- Unfolding a bump on a list whose head carries another label. -/
theorem bumpBucket_cons_miss (lbl : List Char) (fl : Bool) (b : Bucket) (bs : List Bucket)
    (h : ¬ b.time = lbl) :
    bumpBucket lbl fl (b :: bs) = b :: bumpBucket lbl fl bs := by
  simp [bumpBucket, h]

/-- Reading a total count off a cons. -/
theorem bCount_cons (t : List Char) (c : Bucket) (cs : List Bucket) :
    bCount t (c :: cs) = if c.time = t then c.count else bCount t cs := by
  by_cases h : c.time = t
  · simp [bCount, lookupB, h]
  · simp [bCount, lookupB, h]

/-- Reading a failed count off a cons. -/
theorem bFailed_cons (t : List Char) (c : Bucket) (cs : List Bucket) :
    bFailed t (c :: cs) = if c.time = t then c.failed else bFailed t cs := by
  by_cases h : c.time = t
  · simp [bFailed, lookupB, h]
  · simp [bFailed, lookupB, h]

/-- A bump raises exactly the bumped label's total count by one. -/
theorem bCount_bump (lbl : List Char) (fl : Bool) (t : List Char) (bs : List Bucket) :
    bCount t (bumpBucket lbl fl bs) = bCount t bs + (if t = lbl then 1 else 0) := by
  induction bs with
  | nil =>
    rw [show bumpBucket lbl fl [] =
      [{ time := lbl, count := 1, failed := if fl then 1 else 0 }] from rfl]
    rw [bCount_cons]
    by_cases h : t = lbl
    · simp [h, bCount, lookupB]
    · simp [h, bCount, lookupB]
      exact fun he => h he.symm
  | cons b bs ih =>
    by_cases hb : b.time = lbl
    · rw [bumpBucket_cons_hit lbl fl b bs hb, bCount_cons, bCount_cons]
      by_cases ht : b.time = t
      · have h2 : t = lbl := ht.symm.trans hb
        simp [ht, h2]
      · have h2 : ¬ t = lbl := fun he => ht (hb.trans he.symm)
        simp [ht, h2]
    · rw [bumpBucket_cons_miss lbl fl b bs hb, bCount_cons, bCount_cons, ih]
      by_cases ht : b.time = t
      · have h2 : ¬ t = lbl := fun he => hb (ht.trans he)
        simp [ht, h2]
      · simp [ht]

/-- A bump raises exactly the bumped label's failed count, by one when the
record counts as failed. -/
theorem bFailed_bump (lbl : List Char) (fl : Bool) (t : List Char) (bs : List Bucket) :
    bFailed t (bumpBucket lbl fl bs) =
      bFailed t bs + (if t = lbl then (if fl then 1 else 0) else 0) := by
  induction bs with
  | nil =>
    rw [show bumpBucket lbl fl [] =
      [{ time := lbl, count := 1, failed := if fl then 1 else 0 }] from rfl]
    rw [bFailed_cons]
    by_cases h : t = lbl
    · simp [h, bFailed, lookupB]
    · simp [h, bFailed, lookupB]
      exact fun he => absurd he.symm h
  | cons b bs ih =>
    by_cases hb : b.time = lbl
    · rw [bumpBucket_cons_hit lbl fl b bs hb, bFailed_cons, bFailed_cons]
      by_cases ht : b.time = t
      · have h2 : t = lbl := ht.symm.trans hb
        simp [ht, h2]
      · have h2 : ¬ t = lbl := fun he => ht (hb.trans he.symm)
        simp [ht, h2]
    · rw [bumpBucket_cons_miss lbl fl b bs hb, bFailed_cons, bFailed_cons, ih]
      by_cases ht : b.time = t
      · have h2 : ¬ t = lbl := fun he => hb (ht.trans he)
        simp [ht, h2]
      · simp [ht]

/-- Accumulated total count over a record list: one per record with the
label. -/
theorem bCount_foldl (fmt : Option String → List Char) (logs : List LogEntry) :
    ∀ (acc : List Bucket) (t : List Char),
      bCount t (logs.foldl (chartStep fmt) acc) =
        bCount t acc + logs.countP (fun l => decide (fmt l.timestamp = t)) := by
  induction logs with
  | nil => intro acc t; simp
  | cons l ls ih =>
    intro acc t
    rw [List.foldl_cons, ih, List.countP_cons, chartStep, bCount_bump]
    by_cases h : fmt l.timestamp = t
    · simp [h]
      omega
    · simp [h]
      exact fun he => h he.symm

/-- Accumulated failed count over a record list: one per record with the
label whose action contains FAILED. -/
theorem bFailed_foldl (fmt : Option String → List Char) (logs : List LogEntry) :
    ∀ (acc : List Bucket) (t : List Char),
      bFailed t (logs.foldl (chartStep fmt) acc) =
        bFailed t acc
          + logs.countP (fun l => actionFailed l && decide (fmt l.timestamp = t)) := by
  induction logs with
  | nil => intro acc t; simp
  | cons l ls ih =>
    intro acc t
    rw [List.foldl_cons, ih, List.countP_cons, chartStep, bFailed_bump]
    by_cases h : fmt l.timestamp = t
    · by_cases hf : actionFailed l
      · simp [h, hf]
        omega
      · simp [h, hf]
    · simp [h]
      exact fun he => absurd he.symm h

/-- With duplicate-free labels, a member bucket is what its label looks up. -/
theorem lookupB_of_mem (bs : List Bucket) (hnd : (bs.map Bucket.time).Nodup)
    (b : Bucket) (hb : b ∈ bs) : lookupB b.time bs = some b := by
  induction bs with
  | nil => cases hb
  | cons c cs ih =>
    rcases List.mem_cons.mp hb with rfl | hb2
    · simp [lookupB]
    · have hmem : b.time ∈ cs.map Bucket.time := List.mem_map_of_mem _ hb2
      have hc : ¬ c.time = b.time := by
        intro he
        rw [List.map_cons, List.nodup_cons] at hnd
        exact hnd.1 (he ▸ hmem)
      rw [List.map_cons, List.nodup_cons] at hnd
      simpa [lookupB, hc] using ih hnd.2 hb2

/-- Every bucket the reduce produces carries exactly the per-label tallies:
total over all records with the label, failed over those among them whose
action contains FAILED. -/
theorem chartRaw_count (fmt : Option String → List Char) (logs : List LogEntry)
    (b : Bucket) (hb : b ∈ chartRaw fmt logs) :
    b.count = logs.countP (fun l => decide (fmt l.timestamp = b.time)) ∧
    b.failed = logs.countP (fun l => actionFailed l && decide (fmt l.timestamp = b.time)) := by
  have hnd := chartRaw_keys_nodup fmt logs
  have hl := lookupB_of_mem _ hnd b hb
  constructor
  · have h1 := bCount_foldl fmt logs [] b.time
    have h2 : bCount b.time (chartRaw fmt logs) = b.count := by
      simp [bCount, hl]
    rw [chartRaw] at h2
    rw [h2] at h1
    simpa [bCount, lookupB] using h1
  · have h1 := bFailed_foldl fmt logs [] b.time
    have h2 : bFailed b.time (chartRaw fmt logs) = b.failed := by
      simp [bFailed, hl]
    rw [chartRaw] at h2
    rw [h2] at h1
    simpa [bFailed, lookupB] using h1

/-- The sorted bucket list is sorted by label. -/
theorem sortedChart_sorted (fmt : Option String → List Char) (logs : List LogEntry) :
    List.Sorted (fun a b : Bucket => a.time ≤ b.time) (sortedChart fmt logs) := by
  haveI : IsTotal Bucket (fun a b => a.time ≤ b.time) := ⟨fun a b => le_total a.time b.time⟩
  haveI : IsTrans Bucket (fun a b => a.time ≤ b.time) :=
    ⟨fun _ _ _ h1 h2 => le_trans h1 h2⟩
  exact List.sorted_insertionSort _ _

/-- Sorting permutes the reduce's buckets. -/
theorem sortedChart_perm (fmt : Option String → List Char) (logs : List LogEntry) :
    (sortedChart fmt logs).Perm (chartRaw fmt logs) :=
  List.perm_insertionSort _ _

/-- The sorted bucket list still has duplicate-free labels. -/
theorem sortedChart_keys_nodup (fmt : Option String → List Char) (logs : List LogEntry) :
    ((sortedChart fmt logs).map Bucket.time).Nodup :=
  ((sortedChart_perm fmt logs).map Bucket.time).nodup_iff.mpr (chartRaw_keys_nodup fmt logs)

/-- The sorted bucket list is strictly ascending by label. -/
theorem sortedChart_pairwise_lt (fmt : Option String → List Char) (logs : List LogEntry) :
    List.Pairwise (fun a b : Bucket => a.time < b.time) (sortedChart fmt logs) := by
  have hs := sortedChart_sorted fmt logs
  have hne : List.Pairwise (fun a b : Bucket => a.time ≠ b.time) (sortedChart fmt logs) :=
    List.pairwise_map.mp (sortedChart_keys_nodup fmt logs)
  exact (hs.and hne).imp (fun h => lt_of_le_of_ne h.1 h.2)

/-- C5: the timeline groups records by label, each bucket's failed tally
counts only the records whose action contains FAILED among those with its
label (its total tally counts all of them), the buckets are strictly
ascending by label, at most 20 survive, and any bucket cut by the cap
precedes (is earlier than) every surviving bucket. -/
theorem chartData_spec (fmt : Option String → List Char) (logs : List LogEntry) :
    (chartData fmt logs).length ≤ 20 ∧
    List.Pairwise (fun a b : Bucket => a.time < b.time) (chartData fmt logs) ∧
    (∀ b ∈ chartData fmt logs,
      b.count = logs.countP (fun l => decide (fmt l.timestamp = b.time)) ∧
      b.failed = logs.countP (fun l => actionFailed l && decide (fmt l.timestamp = b.time))) ∧
    (∀ b ∈ sortedChart fmt logs, b ∉ chartData fmt logs →
      ∀ c ∈ chartData fmt logs, b.time < c.time) := by
  refine ⟨?_, ?_, ?_, ?_⟩
  · rw [chartData, List.length_drop]
    omega
  · exact List.Pairwise.sublist (List.drop_sublist _ _) (sortedChart_pairwise_lt fmt logs)
  · intro b hb
    have hbs : b ∈ sortedChart fmt logs := (List.drop_sublist _ _).subset hb
    have hbr : b ∈ chartRaw fmt logs := (sortedChart_perm fmt logs).mem_iff.mp hbs
    exact chartRaw_count fmt logs b hbr
  · intro b hbs hbn c hc
    have hpw := sortedChart_pairwise_lt fmt logs
    rw [← List.take_append_drop ((sortedChart fmt logs).length - 20) (sortedChart fmt logs)]
      at hpw
    have hcross := (List.pairwise_append.mp hpw).2.2
    have hbtake :
        b ∈ List.take ((sortedChart fmt logs).length - 20) (sortedChart fmt logs) := by
      have hsplit :
          b ∈ List.take ((sortedChart fmt logs).length - 20) (sortedChart fmt logs)
            ++ List.drop ((sortedChart fmt logs).length - 20) (sortedChart fmt logs) := by
        rw [List.take_append_drop]
        exact hbs
      rcases List.mem_append.mp hsplit with h | h
      · exact h
      · exact absurd h hbn
    exact hcross b hbtake c hc

/-- A concrete labeling function for the timeline instance below. -/
def fmt0 : Option String → List Char := fun _ => "00:00".toList

/-- C5 witness: on the one-record batch with a failed login, the timeline is
the single bucket labeled `00:00` with both tallies 1. -/
theorem chartData_spec_witness :
    (Bucket.mk ("00:00".toList) 1 1) ∈ chartData fmt0 [c4Entry] ∧
    (Bucket.mk ("00:00".toList) 1 1).count =
      [c4Entry].countP
        (fun l => decide (fmt0 l.timestamp = (Bucket.mk ("00:00".toList) 1 1).time)) := by
  have h : (Bucket.mk ("00:00".toList) 1 1) ∈ chartData fmt0 [c4Entry] := by decide
  exact ⟨h, ((chartData_spec fmt0 [c4Entry]).2.2.1 _ h).1⟩

/-- C2 witness: the one-element array input gives a one-record batch. -/
theorem handleFileUpload_json_array_witness :
    looksStructured ("[\x7b\x7d]".toList) = true ∧
    parseCex ("[\x7b\x7d]".toList) = Except.ok (Json.arr [Json.obj []]) ∧
    (handleFileUpload parseCex "T" ("[\x7b\x7d]".toList) []).1.length = 1 :=
  ⟨by decide, rfl,
    (handleFileUpload_json_array parseCex "T" ("[\x7b\x7d]".toList) [] [Json.obj []]
      (by decide) rfl).2⟩

/-- The IP pool of `generateDemoLogs`. -/
def demoIps : List String :=
  ["192.168.1.10", "10.0.0.5", "203.0.113.5", "45.33.22.11", "172.16.0.44"]

/-- The user pool of `generateDemoLogs`. -/
def demoUsers : List String :=
  ["admin", "root", "jdoe", "guest", "service_account"]

/-- The action pool of `generateDemoLogs`. -/
def demoActions : List String :=
  ["LOGIN_SUCCESS", "LOGIN_FAILED", "FILE_ACCESS", "SUDO_EXEC", "PROCESS_START"]

/-- Denominator of the `Math.random` model: doubles in `[0, 1)` have the
form `r / 2 ^ 53`. -/
def RAND_DENOM : Nat := 2 ^ 53

/-- A demo log entry; the ISO timestamp string is modeled by its parsed
epoch-millisecond instant (the `toISOString`/`getTime` round trip is the
identity on integral milliseconds). -/
structure DemoEntry where
  timestamp : Int
  ip : String
  user : String
  action : String
  event_id : Int
  status_code : Option Int
  severity : String
deriving DecidableEq

/-- `new Date(now.getTime() - Math.random() * 3600000).toISOString()`: the
nonnegative fractional offset is subtracted from the integral clock and the
date truncates toward zero, yielding `now` minus the rounded-up offset. -/
def randTimestamp (now : Int) (r : Nat) : Int :=
  now - ((3600000 * r + (RAND_DENOM - 1)) / RAND_DENOM : Nat)

/-- `Math.floor(Math.random() * 5)` under the numerator model. -/
def poolIndex (r : Nat) : Nat := 5 * r / RAND_DENOM

/-- `Math.random() < 0.05`, the burst trigger. -/
def isAttackDraw (r : Nat) : Bool := 20 * r < RAND_DENOM

/-- The inner `for (j = 0; j < 8; j++)` of the brute-force simulation: 8
LOGIN_FAILED records at one-second intervals from the base instant, the
fixed attacker IP `ips[2]` and target user `users[0]`, event 4625, severity
High, no status code. -/
def burstEntries (base : Int) : List DemoEntry :=
  (List.range 8).map (fun (j : Nat) =>
    { timestamp := base + j * 1000
      ip := demoIps.getD 2 ""
      user := demoUsers.getD 0 ""
      action := "LOGIN_FAILED"
      event_id := 4625
      status_code := none
      severity := "High" })

/-- One normal-traffic record: uniformly drawn pool entries, event 4624 when
`Math.random() > 0.5` else 4625, status 403 when `Math.random() > 0.8` else
200, severity Info. -/
def normalEntry (ts : Int) (rIp rUser rAction rEvent rStatus : Nat) : DemoEntry :=
  { timestamp := ts
    ip := demoIps.getD (poolIndex rIp) ""
    user := demoUsers.getD (poolIndex rUser) ""
    action := demoActions.getD (poolIndex rAction) ""
    event_id := if 2 * rEvent > RAND_DENOM then 4624 else 4625
    status_code := some (if 5 * rStatus > 4 * RAND_DENOM then 403 else 200)
    severity := "Info" }

/-- The `for (i = 0; i < count; i++)` loop of `generateDemoLogs`.  `fuel` is
the number of slots left (`count - i`), `k` indexes the next `Math.random()`
draw in the stream `rnd`, and `s` counts the slots still to swallow from a
burst's `i += 7`: while `s > 0` a slot is consumed without running the body,
exactly as the loop never runs its body at the jumped-over indices.  Each
body run consumes the timestamp draw and the attack draw; a normal record
consumes five more draws (ip, user, action, event, status) while a burst
consumes none. -/
def genAux (rnd : Nat → Nat) (now : Int) : Nat → Nat → Nat → List DemoEntry
  | _, 0, _ => []
  | s + 1, fuel + 1, k => genAux rnd now s fuel k
  | 0, fuel + 1, k =>
    let ts := randTimestamp now (rnd k)
    if isAttackDraw (rnd (k + 1)) then
      burstEntries ts ++ genAux rnd now 7 fuel (k + 2)
    else
      normalEntry ts (rnd (k + 2)) (rnd (k + 3)) (rnd (k + 4)) (rnd (k + 5)) (rnd (k + 6))
        :: genAux rnd now 0 fuel (k + 7)

/-- `generateDemoLogs`: run the loop on `count` slots, then
`sort((a, b) => new Date(a.timestamp) - new Date(b.timestamp))`, i.e. sort
ascending by parsed timestamp. -/
def generateDemoLogs (rnd : Nat → Nat) (now : Int) (count : Nat) : List DemoEntry :=
  List.insertionSort (fun a b => a.timestamp ≤ b.timestamp) (genAux rnd now 0 count 0)

/-- Skipping `s` slots is the same as running on `s` fewer slots. -/
theorem genAux_skip (rnd : Nat → Nat) (now : Int) :
    ∀ (fuel s k : Nat), genAux rnd now s fuel k = genAux rnd now 0 (fuel - s) k := by
  intro fuel
  induction fuel with
  | zero =>
    intro s k
    rw [Nat.zero_sub]
    cases s <;> rfl
  | succ fuel ih =>
    intro s k
    cases s with
    | zero => rfl
    | succ s =>
      rw [show genAux rnd now (s + 1) (fuel + 1) k = genAux rnd now s fuel k from rfl,
        ih s k, Nat.succ_sub_succ]

/-- Length of a burst. -/
theorem burstEntries_length (base : Int) : (burstEntries base).length = 8 := by
  rw [burstEntries, List.length_map, List.length_range]

/-- Loop output length: between the remaining slots and that plus 7, and
zero when no slot remains. -/
theorem genAux_length (rnd : Nat → Nat) (now : Int) :
    ∀ (fuel s k : Nat),
      (fuel - s) ≤ (genAux rnd now s fuel k).length ∧
      (genAux rnd now s fuel k).length ≤ (fuel - s) + 7 ∧
      (fuel - s = 0 → (genAux rnd now s fuel k).length = 0) := by
  intro fuel
  induction fuel with
  | zero =>
    intro s k
    have hz : genAux rnd now s 0 k = [] := by cases s <;> rfl
    simp [hz]
  | succ fuel ih =>
    intro s k
    cases s with
    | succ s =>
      have h := ih s k
      rw [show genAux rnd now (s + 1) (fuel + 1) k = genAux rnd now s fuel k from rfl,
        Nat.succ_sub_succ]
      exact h
    | zero =>
      have hunf : genAux rnd now 0 (fuel + 1) k =
          (let ts := randTimestamp now (rnd k)
           if isAttackDraw (rnd (k + 1)) then
             burstEntries ts ++ genAux rnd now 7 fuel (k + 2)
           else
             normalEntry ts (rnd (k + 2)) (rnd (k + 3)) (rnd (k + 4)) (rnd (k + 5))
                 (rnd (k + 6))
               :: genAux rnd now 0 fuel (k + 7)) := rfl
      rw [hunf]
      by_cases ha : isAttackDraw (rnd (k + 1)) = true
      · have h := ih 7 (k + 2)
        simp only [ha, if_true, List.length_append, burstEntries_length]
        by_cases hf : 7 ≤ fuel
        · have h1 := h.1
          have h2 := h.2.1
          refine ⟨by omega, by omega, by omega⟩
        · have h0 := h.2.2 (by omega)
          refine ⟨by omega, by omega, by omega⟩
      · have h := ih 0 (k + 7)
        have h1 := h.1
        have h2 := h.2.1
        rw [Bool.not_eq_true] at ha
        simp only [ha, Bool.false_eq_true, if_false, List.length_cons]
        refine ⟨by omega, by omega, by omega⟩

/-- C9: the batch holds at least `count` records and at most `count + 7`: a
burst fired at one of the last slots still emits all 8 of its records, and
every other path emits exactly one record per consumed slot. -/
theorem generateDemoLogs_length (rnd : Nat → Nat) (now : Int) (count : Nat) :
    count ≤ (generateDemoLogs rnd now count).length ∧
    (generateDemoLogs rnd now count).length ≤ count + 7 := by
  have hp : (generateDemoLogs rnd now count).length = (genAux rnd now 0 count 0).length :=
    (List.perm_insertionSort _ _).length_eq
  have h := genAux_length rnd now count 0 0
  have h1 := h.1
  have h2 := h.2.1
  rw [hp]
  omega

/-- C6: when the attack draw fires on a slot, the loop emits the 8-record
burst from that slot's base instant and continues with 8 slots consumed
(the loop's own increment plus 7 skipped); the burst records carry the third
pool IP, the first pool user, action LOGIN_FAILED, event 4625, severity
High, and timestamps exactly 1 second apart in increasing order; and the
returned batch is always sorted non-decreasing by parsed timestamp. -/
theorem generateDemoLogs_burst (rnd : Nat → Nat) (now : Int) (fuel k : Nat)
    (h : isAttackDraw (rnd (k + 1)) = true) :
    genAux rnd now 0 (fuel + 1) k =
      burstEntries (randTimestamp now (rnd k))
        ++ genAux rnd now 0 (fuel + 1 - 8) (k + 2) ∧
    (burstEntries (randTimestamp now (rnd k))).length = 8 ∧
    (∀ j : Nat, j < 8 →
      (burstEntries (randTimestamp now (rnd k)))[j]? =
        some { timestamp := randTimestamp now (rnd k) + j * 1000,
               ip := demoIps.getD 2 "", user := demoUsers.getD 0 "",
               action := "LOGIN_FAILED", event_id := 4625,
               status_code := none, severity := "High" }) ∧
    demoIps.getD 2 "" = "203.0.113.5" ∧
    demoUsers.getD 0 "" = "admin" ∧
    (∀ c : Nat, List.Sorted (fun a b : DemoEntry => a.timestamp ≤ b.timestamp)
      (generateDemoLogs rnd now c)) := by
  refine ⟨?_, burstEntries_length _, ?_, by decide, by decide, ?_⟩
  · have hunf : genAux rnd now 0 (fuel + 1) k =
        (let ts := randTimestamp now (rnd k)
         if isAttackDraw (rnd (k + 1)) then
           burstEntries ts ++ genAux rnd now 7 fuel (k + 2)
         else
           normalEntry ts (rnd (k + 2)) (rnd (k + 3)) (rnd (k + 4)) (rnd (k + 5))
               (rnd (k + 6))
             :: genAux rnd now 0 fuel (k + 7)) := rfl
    have h8 : fuel + 1 - 8 = fuel - 7 := by omega
    rw [hunf, h8, ← genAux_skip rnd now fuel 7 (k + 2)]
    simp [h]
  · intro j hj
    simp [burstEntries, List.getElem?_map, List.getElem?_range, hj]
  · intro c
    haveI : IsTotal DemoEntry (fun a b => a.timestamp ≤ b.timestamp) :=
      ⟨fun a b => le_total a.timestamp b.timestamp⟩
    haveI : IsTrans DemoEntry (fun a b => a.timestamp ≤ b.timestamp) :=
      ⟨fun _ _ _ h1 h2 => le_trans h1 h2⟩
    exact List.sorted_insertionSort _ _

/-- C6 witness: with the all-zero draw stream the attack condition holds on
the first slot, so a one-slot run opens with the full burst. -/
theorem generateDemoLogs_burst_witness :
    isAttackDraw ((fun _ => 0) (0 + 1)) = true ∧
    genAux (fun _ => 0) 0 0 (0 + 1) 0 =
      burstEntries (randTimestamp 0 ((fun _ => 0) 0))
        ++ genAux (fun _ => 0) 0 0 (0 + 1 - 8) (0 + 2) := by
  have h : isAttackDraw ((fun _ => (0 : Nat)) (0 + 1)) = true := by decide
  exact ⟨h, (generateDemoLogs_burst (fun _ => 0) 0 0 0 h).1⟩

end SecLogAI
